import Mathlib

/-!
Shallow embedding of the psc-portmapper controller (Go) in Lean 4.

The embedding covers:
* `internal/gcp/util.go`: `FirewallNeedsUpdate`, `toSortedStr`;
* `internal/controller/spec.go`: the `Spec` data model and `validateSpec`;
* `internal/controller/portmap_reconciler.go`: `fqInstaceName`,
  `getObsoletePortMappings`, `getPortMappings`, `getNodes`, the per-resource
  reconcilers, the `reconcile` orchestrator, the `delete` teardown path and
  the top-level `Reconcile` pass.

Conventions of the embedding:
* Go `int32` values are modelled as `Int`; where the code performs `int32`
  arithmetic that may wrap, the wrap is made explicit with `wrap32`.
* Go maps used as sets (`map[int32]struct{}`, `map[string]struct{}`) are
  modelled as lists understood up to duplication; insertion dedups.
* Go maps with struct keys compare keys by field-wise value equality, which
  is `DecidableEq` on the corresponding structure.
* A nil pointer dereference is modelled by the `GoRes.crash` outcome.
* External collaborators (the Kubernetes API and the GCP client) are
  modelled by an oracle record holding the outcome each remote call would
  return; every remote call and log statement is recorded in an effect
  trace so that ordering and abort behaviour can be stated.
-/

deriving instance DecidableEq for Except

/-- Two is-complement wrap of an unbounded integer to the `int32` range,
modelling Go `int32` conversion and overflow. -/
def wrap32 (x : Int) : Int :=
  (x + 2 ^ 31) % 2 ^ 32 - 2 ^ 31

/-- `gcp.PortMapping` (client.go): the unit exchanged with the NEG.
Field-wise equality is the comparison key, as for the Go struct used as a
map key. -/
structure PortMapping where
  Port : Int
  Instance : String
  InstancePort : Int
deriving DecidableEq

/-- `computepb.Allowed`: one allow rule of a firewall. `IPProtocol` is a
string pointer in Go, hence an `Option`. -/
structure Allowed where
  IPProtocol : Option String
  Ports : List String
deriving DecidableEq

/-- `computepb.Firewall`, restricted to the field the code reads. The
entries of `Allowed` are pointers in Go and may be nil. -/
structure Firewall where
  Allowed : List (Option Allowed)
deriving DecidableEq

/-- `toSortedStr` (util.go): renders the port set as decimal strings,
sorted lexicographically. The `map[int32]struct{}` argument is modelled as
a list understood as a set, so the keys are deduplicated first. -/
def toSortedStr (is : List Int) : List String :=
  ((is.map toString).dedup).mergeSort (fun a b => a ≤ b)

/-- The set of strings Go builds from `toSortedStr(expectedPorts)`:
membership and cardinality are all `FirewallNeedsUpdate` uses, so the sort
order is irrelevant and we keep the deduplicated list. -/
def desiredPortStrs (expectedPorts : List Int) : List String :=
  (expectedPorts.map toString).dedup

/-- `gcp.FirewallNeedsUpdate` (util.go lines 51-77). Returns `true` when
the firewall must be patched. The Go code checks: non-nil firewall with
exactly one allow rule; rule non-nil with a non-empty port list; protocol
is `"tcp"`; the length of the rule port list equals the size of the
desired port set; every listed port is in the desired set. -/
def FirewallNeedsUpdate (fw : Option Firewall) (expectedPorts : List Int) : Bool :=
  match fw with
  | none => true
  | some f =>
    match f.Allowed with
    | [rule?] =>
      match rule? with
      | none => true
      | some rule =>
        if rule.Ports.length = 0 then true
        else
          match rule.IPProtocol with
          | none => true
          | some proto =>
            if proto ≠ "tcp" then true
            else
              let portSet := desiredPortStrs expectedPorts
              if rule.Ports.length ≠ portSet.length then true
              else if rule.Ports.any (fun p => ¬ portSet.contains p) then true
              else false
    | _ => true

/-- `getObsoletePortMappings` (portmap_reconciler.go lines 820-838):
builds a value-keyed set from `expected`, then collects the elements of
`actual` absent from it. The Go hash map of dereferenced structs is
modelled by a list accumulated by insertion; the output list is built by
appending, preserving the order of `actual`. -/
def getObsoletePortMappings (expected actual : List PortMapping) : List PortMapping :=
  let portMap : List PortMapping := expected.foldl (fun m pm => pm :: m) []
  actual.foldl (fun diff pm => if portMap.contains pm then diff else diff ++ [pm]) []

/-- Split a character list on `/`, exactly as `String.splitOn "/"` splits
the corresponding string (structural recursion so that concrete inputs
evaluate). -/
def splitSlash : List Char → List (List Char)
  | [] => [[]]
  | c :: rest =>
    if c = '/' then [] :: splitSlash rest
    else
      match splitSlash rest with
      | [] => [[c]]
      | h :: t => (c :: h) :: t

/-- `fqInstaceName` (portmap_reconciler.go lines 852-869): matches the
node provider ID against `^gce://([^/]+)/([^/]+)/([^/]+)$` and rebuilds it
as `projects/<p>/zones/<z>/instances/<n>`. The anchored regex is modelled
character-wise: the literal `gce://` prefix, then exactly three non-empty
slash-free segments separated by `/`. -/
def fqInstaceName (nodeProviderID : String) : Except String String :=
  match nodeProviderID.data with
  | 'g' :: 'c' :: 'e' :: ':' :: '/' :: '/' :: rest =>
    match splitSlash rest with
    | [projectID, zone, inst] =>
      if projectID ≠ [] ∧ zone ≠ [] ∧ inst ≠ [] then
        .ok ("projects/" ++ String.mk projectID ++ "/zones/" ++ String.mk zone ++
          "/instances/" ++ String.mk inst)
      else
        .error ("invalid provider ID format, expected gce://<project-id>/<zone>/<instance-name>, got: " ++ nodeProviderID)
    | _ =>
      .error ("invalid provider ID format, expected gce://<project-id>/<zone>/<instance-name>, got: " ++ nodeProviderID)
  | _ =>
    .error ("invalid provider ID format, expected gce://<project-id>/<zone>/<instance-name>, got: " ++ nodeProviderID)

/-- `Consumer` (spec.go): exactly the JSON fields. Pointers are `Option`,
`connection_limit` is a `uint32` modelled as `Nat`. -/
structure Consumer where
  NetworkFQN : Option String
  ConnectionLimit : Nat
  ProjectIdOrNum : Option String
deriving DecidableEq

/-- `PortConfig` (spec.go). -/
structure PortConfig where
  NodePort : Int
  ContainerPort : Int
  StartingPort : Int
deriving DecidableEq

/-- `Spec` (spec.go). The Go `NodePorts` field is a `map[string]PortConfig`;
it is modelled as an association list in map-iteration order (which Go
leaves unspecified; no claim depends on it). The `Prefix` field is renamed
`pfx` for Lean. -/
structure Spec where
  pfx : String
  IP : Option String
  GlobalAccess : Option Bool
  ConsumerAcceptList : List Consumer
  NatSubnetFQNs : List String
  NodePorts : List (String × PortConfig)
deriving DecidableEq

/-- `networkFQNRegexp` (spec.go): `^projects\/[^/]+\/global\/networks\/[^/]+$`,
modelled by the exact shape of the slash-split. -/
def networkFQNMatches (s : String) : Bool :=
  match splitSlash s.data with
  | [a, p, b, c, n] =>
    a = "projects".data ∧ b = "global".data ∧ c = "networks".data ∧ p ≠ [] ∧ n ≠ []
  | _ => false

/-- `subnetFQNRegexp` (spec.go): `^projects\/[^/]+\/regions\/[^/]+\/subnetworks\/[^/]+$`. -/
def subnetFQNMatches (s : String) : Bool :=
  match splitSlash s.data with
  | [a, p, b, r, c, n] =>
    a = "projects".data ∧ b = "regions".data ∧ c = "subnetworks".data ∧
      p ≠ [] ∧ r ≠ [] ∧ n ≠ []
  | _ => false

/-- Go `%q` of a string: quotes it, escaping backslash and quote. (Go also
escapes non-printable characters; no modelled input contains any.) -/
def goQuote (s : String) : String :=
  "\"" ++ String.join (s.toList.map fun c =>
    if c = '\\' then "\\\\" else if c = '"' then "\\\"" else String.singleton c) ++ "\""

/-- The error appended when a consumer entry sets neither identifier. -/
def errConsumerNeither (i : Nat) : String :=
  "either network_fqn or project_id_or_num must be set in consumer_list[" ++ toString i ++ "]"

/-- The error appended when a consumer entry sets both identifiers. -/
def errConsumerBoth (i : Nat) : String :=
  "network_fqn and project_id_or_num can't both be set in consumer_list[" ++ toString i ++ "]"

/-- The error appended when a set `network_fqn` fails the network grammar. -/
def errConsumerBadNetwork (v : String) (i : Nat) : String :=
  "invalid value for network_fqn (" ++ goQuote v ++ ") in consumer_list[" ++ toString i ++
    "], expected format: projects/<project-id>/global/networks/<network-name>"

/-- The error appended when `nat_subnet_fqns` is empty. -/
def errNatEmpty : String := "nat_subnet_fqns is empty"

/-- The error appended when a subnet reference fails the subnet grammar. -/
def errBadSubnet (i : Nat) (v : String) : String :=
  "invalid value for nat_subnet_fqns[" ++ toString i ++ "] (" ++ goQuote v ++
    "), expected format: projects/<project-id>/regions/<region-name>/subnetworks/<subnetwork-name>"

/-- The violations one consumer entry contributes, in the order the Go
loop body appends them (neither-set, both-set, malformed network). -/
def consumerEntryErrors (i : Nat) (c : Consumer) : List String :=
  (if c.NetworkFQN = none ∧ c.ProjectIdOrNum = none then [errConsumerNeither i] else []) ++
  (if c.NetworkFQN ≠ none ∧ c.ProjectIdOrNum ≠ none then [errConsumerBoth i] else []) ++
  (match c.NetworkFQN with
   | some v => if networkFQNMatches v then [] else [errConsumerBadNetwork v i]
   | none => [])

/-- The log lines one consumer entry contributes. -/
def consumerEntryLogs (c : Consumer) : List String :=
  if c.ConnectionLimit = 0 then
    ["connection_limit is not set, no connections will be allowed from it."]
  else []

/-- `validateSpec` (spec.go lines 59-112), error accumulation: one
sequential pass appending to the multierror, exactly as the Go code does:
the consumer loop (each entry appending up to three errors), then the
emptiness check on `nat_subnet_fqns`, then the subnet loop. -/
def validateSpecErrors (spec : Spec) : List String :=
  let consumerErrs :=
    (spec.ConsumerAcceptList.enum.foldl
      (fun acc ic => acc ++ consumerEntryErrors ic.1 ic.2) [])
  let natErrs :=
    consumerErrs ++ (if spec.NatSubnetFQNs.length = 0 then [errNatEmpty] else [])
  spec.NatSubnetFQNs.enum.foldl
    (fun acc si => acc ++ (if subnetFQNMatches si.2 then [] else [errBadSubnet si.1 si.2])) natErrs

/-- The log lines `validateSpec` emits (empty consumer list; per-entry
zero connection limit). -/
def validateSpecLogs (spec : Spec) : List String :=
  (if spec.ConsumerAcceptList.length = 0 then
    ["consumer_accept_list is empty, no incoming connections will be allowed."]
   else []) ++
  spec.ConsumerAcceptList.foldl (fun acc c => acc ++ consumerEntryLogs c) []

/-- `validateSpec` (spec.go): nil spec fails with `spec is nil`; otherwise
the accumulated violations are joined by `"; "` (the `multierr` message
format), or no error when none were found. Returns the emitted log lines
alongside the error. -/
def validateSpec (spec : Option Spec) : List String × Option String :=
  match spec with
  | none => ([], some "spec is nil")
  | some s =>
    let es := validateSpecErrors s
    (validateSpecLogs s, if es.isEmpty then none else some (String.intercalate "; " es))


/-- `corev1.Node`, restricted to the fields the controller reads: the
object name, the `kubernetes.io/hostname` annotation value and
`Spec.ProviderID`. -/
structure Node where
  name : String
  hostname : String
  providerID : String
deriving DecidableEq

/-- `corev1.Pod`, restricted to the fields the controller reads. An
unscheduled pod has an empty `nodeName`. -/
structure Pod where
  ns : String
  name : String
  nodeName : String
deriving DecidableEq

/-- Outcome of a Go function that can also panic: `crash` models a nil
pointer dereference. -/
inductive GoRes (α : Type) where
  | ok (a : α)
  | err (e : String)
  | crash
deriving DecidableEq

/-- Go map lookup on a string-keyed map modelled as an association list. -/
def mapLookup {α : Type} (m : List (String × α)) (k : String) : Option α :=
  match m with
  | [] => none
  | (k2, v) :: rest => if k2 = k then some v else mapLookup rest k

/-- The fan-out part of `getNodes` (portmap_reconciler.go lines 463-505):
one `Get` per scheduled pod; any single lookup failure fails the whole
batch (`errgroup` semantics; Go surfaces an arbitrary failing lookup, the
model surfaces the first in pod order — no claim depends on which). -/
def fetchNodes (getNode : String → Except String Node) : List Pod → Except String (List Node)
  | [] => .ok []
  | p :: rest =>
    match getNode p.nodeName with
    | .error e => .error ("failed to get node " ++ p.nodeName ++ ": " ++ e)
    | .ok n =>
      match fetchNodes getNode rest with
      | .error e => .error e
      | .ok ns2 => .ok (n :: ns2)

/-- The `nodes` map built by `getNodes`, keyed by the node object name.
Go map insertion overwrites; with a deterministic lookup the overwriting
value equals the existing one, so the model keeps the first. -/
def nodesMapOf (ns2 : List Node) : List (String × Node) :=
  ns2.foldl (fun m n => if (mapLookup m n.name).isSome then m else m ++ [(n.name, n)]) []

/-- `getNodes` (portmap_reconciler.go lines 463-505): skips unscheduled
pods (empty node name), resolves every scheduled pod's node, fails the
whole batch on any single failure, and returns the name-keyed node map. -/
def getNodes (getNode : String → Except String Node) (pods : List Pod) :
    Except String (List (String × Node)) :=
  match fetchNodes getNode (pods.filter (fun p => p.nodeName ≠ "")) with
  | .error e => .error e
  | .ok ns2 => .ok (nodesMapOf ns2)

/-- The inner loop body of `getPortMappings` for the pod at index `i`:
for each named port, look the pod's node up in the map (a missing key
yields Go's nil zero value, and the following `node.Spec.ProviderID`
dereference panics — `crash`), build the fully qualified instance name and
emit the mapping. `int32(i)` and the `int32` addition wrap. -/
def podMappings (nodes : List (String × Node)) (pod : Pod) (i : Int) :
    List (String × PortConfig) → GoRes (List PortMapping)
  | [] => .ok []
  | (_, p) :: rest =>
    match mapLookup nodes pod.nodeName with
    | none => .crash
    | some node =>
      match fqInstaceName node.providerID with
      | .error e => .err e
      | .ok inst =>
        match podMappings nodes pod i rest with
        | .ok ms =>
          .ok ({ Port := wrap32 (p.StartingPort + wrap32 i), Instance := inst,
                 InstancePort := p.NodePort } :: ms)
        | r => r

/-- The outer loop of `getPortMappings` (portmap_reconciler.go lines
439-461), indexing the pods from `i` upward; the first failing iteration
aborts and discards the accumulated mappings. -/
def getPortMappingsFrom (nodePorts : List (String × PortConfig))
    (nodes : List (String × Node)) : List Pod → Int → GoRes (List PortMapping)
  | [], _ => .ok []
  | pod :: rest, i =>
    match podMappings nodes pod i nodePorts with
    | .ok ms =>
      match getPortMappingsFrom nodePorts nodes rest (i + 1) with
      | .ok tail => .ok (ms ++ tail)
      | r => r
    | .err e => .err e
    | .crash => .crash

/-- `getPortMappings` (portmap_reconciler.go lines 439-461): for every pod
(in list order) and every named port (in map-iteration order), emit the
mapping `(StartingPort + i, instance, NodePort)`. -/
def getPortMappings (spec : Spec) (nodes : List (String × Node)) (pods : List Pod) :
    GoRes (List PortMapping) :=
  getPortMappingsFrom spec.NodePorts nodes pods 0

/-- Modelled from the spec (claim side, for C2): the expected flat mapping
list, replica-major — the replica at position `i` contributes, for each
named port `p` in order, `(p.StartingPort + i, instF i, p.NodePort)`. -/
def expectedMappings (nodePorts : List (String × PortConfig)) (instF : Nat → String)
    (n : Nat) : List PortMapping :=
  (List.range n).flatMap fun i =>
    nodePorts.map fun q =>
      { Port := q.2.StartingPort + (i : Int), Instance := instF i,
        InstancePort := q.2.NodePort }

/-- Resource name derivation (portmap_reconciler.go lines 791-817). -/
def portmapperApp : String := "psc-portmapper"

/-- `nameBase`: the spec prefix concatenated with the app name. -/
def nameBase (pfx : String) : String := pfx ++ portmapperApp

/-- `nodeportName`. -/
def nodeportName (pfx : String) : String := nameBase pfx

/-- `firewallName`. -/
def firewallName (pfx : String) : String := nameBase pfx ++ "-firewall"

/-- `negName`. -/
def negName (pfx : String) : String := nameBase pfx ++ "-neg"

/-- `backendName`. -/
def backendName (pfx : String) : String := nameBase pfx ++ "-backend"

/-- `fwdRuleName`. -/
def fwdRuleName (pfx : String) : String := nameBase pfx ++ "-fwdrule"

/-- `svcAttName`. -/
def svcAttName (pfx : String) : String := nameBase pfx ++ "-svcatt"

/-- The `finalizer` constant (portmap_reconciler.go line 317). -/
def finalizer : String := "psc-portmapper.0x5d.org/finalizer"

/-- The `annotation` constant (portmap_reconciler.go line 311), the key of
the spec payload on the StatefulSet. -/
def annotKey : String := "psc-portmapper.0x5d.org/spec"

/-- `gcp.ForwardingRuleFQN` (util.go). -/
def ForwardingRuleFQN (project region name : String) : String :=
  "projects/" ++ project ++ "/regions/" ++ region ++ "/forwardingRules/" ++ name

/-- `computepb.ServiceAttachmentConsumerProjectLimit`, restricted to the
fields `toConsumerProjectLimits` sets. -/
structure ConsumerProjectLimit where
  ProjectIdOrNum : Option String
  NetworkUrl : Option String
  ConnectionLimit : Nat
deriving DecidableEq

/-- `toConsumerProjectLimits` (portmap_reconciler.go lines 840-850). -/
def toConsumerProjectLimits (cs : List Consumer) : List ConsumerProjectLimit :=
  cs.map fun c =>
    { ProjectIdOrNum := c.ProjectIdOrNum, NetworkUrl := c.NetworkFQN,
      ConnectionLimit := c.ConnectionLimit }

/-- Errors returned by the external clients. `notFound` models
`gcp.ErrNotFound` and the Kubernetes NotFound status; everything else is
an opaque error with a message. -/
inductive Err where
  | notFound
  | other (msg : String)
deriving DecidableEq

/-- One remote call of the GCP client, with the arguments the claims are
about. -/
inductive Call where
  | getFirewall (name : String)
  | updateFirewall (name : String) (ports : List Int) (hostnames : List String)
  | createFirewall (name : String) (ports : List Int) (hostnames : List String)
  | getNEG (name : String)
  | createNEG (name : String)
  | getBackend (name : String)
  | createBackend (name neg : String)
  | listEndpoints (neg : String)
  | detachEndpoints (neg : String) (ms : List PortMapping)
  | attachEndpoints (neg : String) (ms : List PortMapping)
  | getFwdRule (name : String)
  | createFwdRule (name backend : String) (ip : Option String) (globalAccess : Option Bool)
      (ports : List Int)
  | getSvcAtt (name : String)
  | createSvcAtt (name fwdRuleFQN : String) (consumers : List ConsumerProjectLimit)
      (natSubnetFQNs : List String)
  | deleteSvcAtt (name : String)
  | deleteFwdRule (name : String)
  | deleteBackend (name : String)
  | deleteNEG (name : String)
  | deleteFirewall (name : String)
deriving DecidableEq

/-- One observable effect of a reconciliation pass: a GCP call, a log
statement, a Kubernetes API mutation, or a finalizer change on the
StatefulSet object. -/
inductive Eff where
  | call (c : Call)
  | logInfo (msg : String)
  | logError (msg : String)
  | addFinalizer
  | removeFinalizer
  | stsUpdate
  | svcGet (ns name : String)
  | svcUpdate (ns name : String)
  | svcCreate (ns name : String)
  | svcDelete (ns name : String)
  | podList
deriving DecidableEq

/-- The GCP calls of an effect trace, in order. -/
def gcpCalls (t : List Eff) : List Call :=
  t.filterMap fun e => match e with | .call c => some c | _ => none

/-- The outcome every GCP remote call would return, plus the client's
static project/region configuration: the oracle for the GCP collaborator.
Each call happens at most once per pass, so one outcome per method
suffices. -/
structure GcpOutcomes where
  project : String
  region : String
  getFirewall : Except Err (Option Firewall)
  updateFirewall : Option Err
  createFirewall : Option Err
  getNEG : Except Err Unit
  createNEG : Option Err
  getBackend : Except Err Unit
  createBackend : Option Err
  listEndpoints : Except Err (List PortMapping)
  detachEndpoints : Option Err
  attachEndpoints : Option Err
  getFwdRule : Except Err Unit
  createFwdRule : Option Err
  getSvcAtt : Except Err Unit
  createSvcAtt : Option Err
  deleteSvcAtt : Option Err
  deleteFwdRule : Option Err
  deleteBackend : Option Err
  deleteNEG : Option Err
  deleteFirewall : Option Err

/-- `reconcileFirewall` (portmap_reconciler.go lines 664-683), with its
exact control flow: get; if found and stale, update (an update failure
returns); then the not-found test on the current error value — which a nil
error also fails, so successful get/update paths return nil there (after
an incidental error log); a not-found get falls through to create. -/
def reconcileFirewall (o : GcpOutcomes) (name : String) (ports : List Int)
    (hostnames : List String) : List Eff × Option Err :=
  match o.getFirewall with
  | .ok fw =>
    if FirewallNeedsUpdate fw ports then
      match o.updateFirewall with
      | some e =>
        ([.call (.getFirewall name), .call (.updateFirewall name ports hostnames),
          .logError "Failed to update firewall policy."], some e)
      | none =>
        ([.call (.getFirewall name), .call (.updateFirewall name ports hostnames),
          .logError "Got an unexpected error trying to get firewall policy."], none)
    else
      ([.call (.getFirewall name),
        .logError "Got an unexpected error trying to get firewall policy."], none)
  | .error e =>
    if e = .notFound then
      match o.createFirewall with
      | some ce =>
        ([.call (.getFirewall name), .call (.createFirewall name ports hostnames),
          .logError "Failed to create firewall policy."], some ce)
      | none =>
        ([.call (.getFirewall name), .call (.createFirewall name ports hostnames)], none)
    else
      ([.call (.getFirewall name),
        .logError "Got an unexpected error trying to get firewall policy."], some e)

/-- `reconcileNEG` (portmap_reconciler.go lines 685-700): get; on
not-found, create; any other get error is surfaced. -/
def reconcileNEG (o : GcpOutcomes) (name : String) : List Eff × Option Err :=
  match o.getNEG with
  | .ok _ => ([.call (.getNEG name)], none)
  | .error e =>
    if e = .notFound then
      match o.createNEG with
      | some ce =>
        ([.call (.getNEG name), .call (.createNEG name),
          .logError "Failed to create the NEG."], some ce)
      | none => ([.call (.getNEG name), .call (.createNEG name)], none)
    else
      ([.call (.getNEG name),
        .logError "Got an unexpected error trying to get the NEG."], some e)

/-- `reconcileBackend` (portmap_reconciler.go lines 702-717). -/
def reconcileBackend (o : GcpOutcomes) (name neg : String) : List Eff × Option Err :=
  match o.getBackend with
  | .ok _ => ([.call (.getBackend name)], none)
  | .error e =>
    if e = .notFound then
      match o.createBackend with
      | some ce =>
        ([.call (.getBackend name), .call (.createBackend name neg),
          .logError "Failed to create the backend."], some ce)
      | none => ([.call (.getBackend name), .call (.createBackend name neg)], none)
    else
      ([.call (.getBackend name),
        .logError "Got an unexpected error trying to get the backend."], some e)

/-- The attach tail of `reconcileEndpoints`. -/
def attachTail (o : GcpOutcomes) (neg : String) (mappings : List PortMapping)
    (pre : List Eff) : List Eff × Option Err :=
  match o.attachEndpoints with
  | some e =>
    (pre ++ [.call (.attachEndpoints neg mappings),
      .logError "Failed to attach the endpoints to the NEG."], some e)
  | none => (pre ++ [.call (.attachEndpoints neg mappings)], none)

/-- `reconcileEndpoints` (portmap_reconciler.go lines 719-746): list the
current endpoints (a missing NEG is logged distinctly), detach the
obsolete set first when it is non-empty, then attach the desired set. -/
def reconcileEndpoints (o : GcpOutcomes) (neg : String) (mappings : List PortMapping) :
    List Eff × Option Err :=
  match o.listEndpoints with
  | .error e =>
    ([.call (.listEndpoints neg),
      .logError (if e = .notFound then
        "Couldn't attach the endpoints to the NEG. Was the NEG removed manually or by another process?"
      else
        "Got an unexpected error trying to list the NEG's endpoints.")], some e)
  | .ok eps =>
    let obsolete := getObsoletePortMappings mappings eps
    if obsolete.length > 0 then
      match o.detachEndpoints with
      | some e =>
        ([.call (.listEndpoints neg), .call (.detachEndpoints neg obsolete),
          .logError "Failed to detach obsolete endpoints from the NEG."], some e)
      | none =>
        attachTail o neg mappings
          [.call (.listEndpoints neg), .call (.detachEndpoints neg obsolete)]
    else
      attachTail o neg mappings [.call (.listEndpoints neg)]

/-- `reconcileForwardingRule` (portmap_reconciler.go lines 748-771). -/
def reconcileForwardingRule (o : GcpOutcomes) (name backend : String) (ports : List Int)
    (ip : Option String) (globalAccess : Option Bool) : List Eff × Option Err :=
  match o.getFwdRule with
  | .ok _ => ([.call (.getFwdRule name)], none)
  | .error e =>
    if e = .notFound then
      match o.createFwdRule with
      | some ce =>
        ([.call (.getFwdRule name), .call (.createFwdRule name backend ip globalAccess ports),
          .logError "Failed to create the forwarding rule."], some ce)
      | none =>
        ([.call (.getFwdRule name), .call (.createFwdRule name backend ip globalAccess ports)],
          none)
    else
      ([.call (.getFwdRule name),
        .logError "Got an unexpected error trying to get the backend."], some e)

/-- `reconcileServiceAttachment` (portmap_reconciler.go lines 773-789). -/
def reconcileServiceAttachment (o : GcpOutcomes) (name fwdRule : String)
    (consumers : List Consumer) (natSubnetFQNs : List String) : List Eff × Option Err :=
  match o.getSvcAtt with
  | .ok _ => ([.call (.getSvcAtt name)], none)
  | .error e =>
    if e = .notFound then
      match o.createSvcAtt with
      | some ce =>
        ([.call (.getSvcAtt name),
          .call (.createSvcAtt name (ForwardingRuleFQN o.project o.region fwdRule)
            (toConsumerProjectLimits consumers) natSubnetFQNs),
          .logError "Failed to create the service attachment."], some ce)
      | none =>
        ([.call (.getSvcAtt name),
          .call (.createSvcAtt name (ForwardingRuleFQN o.project o.region fwdRule)
            (toConsumerProjectLimits consumers) natSubnetFQNs)], none)
    else
      ([.call (.getSvcAtt name),
        .logError "Got an unexpected error trying to get the service attachment."], some e)

/-- The `reconcilers` slice of the `reconcile` orchestrator
(portmap_reconciler.go lines 508-541): the six labelled steps, in source
order, each paired with the effects and outcome its function produces. -/
def reconcilers (o : GcpOutcomes) (s : Spec) (ports : List Int)
    (mappings : List PortMapping) (hostnames : List String) :
    List (String × (List Eff × Option Err)) :=
  [("firewall", reconcileFirewall o (firewallName s.pfx) ports hostnames),
   ("NEG", reconcileNEG o (negName s.pfx)),
   ("backend", reconcileBackend o (backendName s.pfx) (negName s.pfx)),
   ("endpoints", reconcileEndpoints o (negName s.pfx) mappings),
   ("forwarding rule",
     reconcileForwardingRule o (fwdRuleName s.pfx) (backendName s.pfx) ports s.IP s.GlobalAccess),
   ("service attachment",
     reconcileServiceAttachment o (svcAttName s.pfx) (fwdRuleName s.pfx)
       s.ConsumerAcceptList s.NatSubnetFQNs)]

/-- The loop of the `reconcile` orchestrator (portmap_reconciler.go lines
542-548): run each step in order; the first failure logs the step's
resource name with the error and aborts the remaining steps. -/
def runSteps : List (String × (List Eff × Option Err)) → List Eff × Option Err
  | [] => ([], none)
  | (nm, (effs, res)) :: rest =>
    match res with
    | some e => (effs ++ [.logError ("Failed to reconcile " ++ nm)], some e)
    | none =>
      let r := runSteps rest
      (effs ++ r.1, r.2)

/-- `reconcile` (portmap_reconciler.go lines 507-550): the create/update
chain over the six resources. -/
def reconcileChain (o : GcpOutcomes) (s : Spec) (ports : List Int)
    (mappings : List PortMapping) (hostnames : List String) : List Eff × Option Err :=
  runSteps (reconcilers o s ports mappings hostnames)

/-- `appsv1.StatefulSet`, restricted to the fields the controller reads:
object keys, the annotation map, the finalizer list and the deletion
timestamp. -/
structure Sts where
  ns : String
  name : String
  annots : List (String × String)
  finalizers : List String
  deletionTimestamp : Option Nat
deriving DecidableEq

/-- The outcome every Kubernetes call (and the JSON decoder) would
return: the oracle for the workload-API collaborator, together with the
GCP oracle. `decode` models `json.Unmarshal` on the annotation payload. -/
structure WorldK where
  getSts : Except Err Sts
  addFinUpdate : Option Err
  decode : String → Except String Spec
  deleteNodePortSvc : Option Err
  getNodePortSvc : Except Err Unit
  updateNodePortSvc : Option Err
  createNodePortSvc : Option Err
  listPods : Except Err (List Pod)
  getNode : String → Except String Node
  removeFinUpdate : Option Err
  gcp : GcpOutcomes

/-- The `deleters` slice of the `delete` teardown (portmap_reconciler.go
lines 558-586): the five labelled GCP deletions, in source order, each
paired with its call and its outcome. -/
def deleters (o : GcpOutcomes) (pfx : String) : List (String × Call × Option Err) :=
  [("service attachment", .deleteSvcAtt (svcAttName pfx), o.deleteSvcAtt),
   ("forwarding rule", .deleteFwdRule (fwdRuleName pfx), o.deleteFwdRule),
   ("backend", .deleteBackend (backendName pfx), o.deleteBackend),
   ("NEG", .deleteNEG (negName pfx), o.deleteNEG),
   ("firewall", .deleteFirewall (firewallName pfx), o.deleteFirewall)]

/-- The loop of `delete` (portmap_reconciler.go lines 587-598): each
deletion in order; success and NotFound are logged and the loop continues;
any other error is logged and aborts the remaining deletions. -/
def runDeleters : List (String × Call × Option Err) → List Eff × Option Err
  | [] => ([], none)
  | (_, c, res) :: rest =>
    match res with
    | none =>
      let r := runDeleters rest
      (.call c :: .logInfo "Resource deleted." :: r.1, r.2)
    | some .notFound =>
      let r := runDeleters rest
      (.call c ::
        .logInfo "Resource not found, so nothing to delete. Was it removed manually or by another process?" :: r.1, r.2)
    | some e => ([.call c, .logError "Failed to delete resource."], some e)

/-- `delete` (portmap_reconciler.go lines 552-608): best-effort NodePort
service deletion (failure only logged), the five GCP deletions, and, only
when they all succeeded or were already gone, removal of the ownership
finalizer (a no-op when it is absent) followed by the StatefulSet update. -/
def deletePath (w : WorldK) (s : Spec) (sts : Sts) : List Eff × Option Err :=
  let npEffs : List Eff :=
    match w.deleteNodePortSvc with
    | some _ => [.svcDelete sts.ns (nodeportName s.pfx),
        .logError "Failed to delete the NodePort service."]
    | none => [.svcDelete sts.ns (nodeportName s.pfx)]
  let r := runDeleters (deleters w.gcp s.pfx)
  match r.2 with
  | some e => (npEffs ++ r.1, some e)
  | none =>
    if finalizer ∈ sts.finalizers then
      match w.removeFinUpdate with
      | some e =>
        (npEffs ++ r.1 ++ [.removeFinalizer, .stsUpdate,
          .logError "Failed to remove finalizer from the STS."], some e)
      | none => (npEffs ++ r.1 ++ [.removeFinalizer, .stsUpdate], none)
    else (npEffs ++ r.1, none)

/-- `reconcileNodePortService` (portmap_reconciler.go lines 610-662):
get, then update when present, create when not found; any other get error
is surfaced. (The service payload is deterministic data derived from the
spec; the claims do not mention it, so the trace records the operations
and their keys.) -/
def reconcileNodePortService (w : WorldK) (ns name : String) : List Eff × Option Err :=
  match w.getNodePortSvc with
  | .ok _ =>
    match w.updateNodePortSvc with
    | some e =>
      ([.svcGet ns name, .svcUpdate ns name,
        .logError "Failed to update the NodePort service."], some e)
    | none => ([.svcGet ns name, .svcUpdate ns name], none)
  | .error e =>
    if e ≠ .notFound then
      ([.svcGet ns name, .logError "Failed to get the NodePort service."], some e)
    else
      match w.createNodePortSvc with
      | some ce =>
        ([.svcGet ns name, .svcCreate ns name,
          .logError "Failed to create the NodePort service."], some ce)
      | none => ([.svcGet ns name, .svcCreate ns name], none)

/-- The result of a pass: `reconcile.Result`'s requeue delay in seconds
plus the returned error, or a panic. -/
inductive RecOut where
  | ret (requeueAfterSec : Nat) (err : Option Err)
  | crash
deriving DecidableEq

/-- The `1 * time.Minute` requeue delay, in seconds. -/
def requeueDelaySec : Nat := 60

/-- The tail of the create/update path of `Reconcile` after the spec was
validated and no deletion timestamp was found (portmap_reconciler.go lines
390-436): derive the port set, reconcile the NodePort service, list the
pods, resolve the nodes, compute the mappings and run the chain. -/
def reconcileLive (w : WorldK) (sts : Sts) (spec : Spec) : List Eff × RecOut :=
  let ports := (spec.NodePorts.map fun q => q.2.NodePort).dedup
  let np := reconcileNodePortService w sts.ns (nodeportName spec.pfx)
  match np.2 with
  | some e =>
    (np.1 ++ [.logError "Failed to reconcile the NodePort service."], .ret 0 (some e))
  | none =>
    match w.listPods with
    | .error e =>
      (np.1 ++ [.podList, .logError "Failed to list pods matching the STS' label."],
        .ret requeueDelaySec (some e))
    | .ok pods =>
      let emptyLog : List Eff :=
        if pods.length = 0 then
          [.logInfo "No pods matched the STS' labels. Are its replicas set to 0?"]
        else []
      match getNodes w.getNode pods with
      | .error m =>
        (np.1 ++ [.podList] ++ emptyLog ++
          [.logError "Failed to get the nodes the STS pods are scheduled on."],
          .ret requeueDelaySec (some (.other m)))
      | .ok nodes =>
        let hostnames := nodes.map fun kv => kv.2.hostname
        match getPortMappings spec nodes pods with
        | .crash => (np.1 ++ [.podList] ++ emptyLog, .crash)
        | .err m =>
          (np.1 ++ [.podList] ++ emptyLog ++ [.logError "Failed to get the port mappings."],
            .ret requeueDelaySec (some (.other m)))
        | .ok mappings =>
          let rc := reconcileChain w.gcp spec ports mappings hostnames
          match rc.2 with
          | some e =>
            (np.1 ++ [.podList] ++ emptyLog ++ rc.1 ++
              [.logError "Failed to reconcile the resources."], .ret requeueDelaySec (some e))
          | none =>
            (np.1 ++ [.podList] ++ emptyLog ++ rc.1 ++ [.logInfo "Reconciliation successful."],
              .ret 0 none)

/-- `Reconcile` (portmap_reconciler.go lines 339-437): load the
StatefulSet (absence is a no-op), require the annotation (absence is a
no-op), ensure the ownership finalizer, decode the spec payload, validate
it, then either tear down (deletion timestamp set) or run the
create/update path. -/
def Reconcile (w : WorldK) : List Eff × RecOut :=
  match w.getSts with
  | .error e =>
    if e ≠ .notFound then ([.logError "Failed to get StatefulSet."], .ret 0 (some e))
    else ([.logInfo "Couldn't find the STS that triggered the reconciliation."], .ret 0 none)
  | .ok sts =>
    match mapLookup sts.annots annotKey with
    | none =>
      ([.logInfo ("The STS is missing the " ++ annotKey ++ " annotation")], .ret 0 none)
    | some a =>
      let finEffs : List Eff :=
        if finalizer ∈ sts.finalizers then [] else [.addFinalizer, .stsUpdate]
      match (if finalizer ∈ sts.finalizers then none else w.addFinUpdate) with
      | some e =>
        (finEffs ++ [.logError "Failed to add finalizer to the STS."], .ret 0 (some e))
      | none =>
        match w.decode a with
        | .error m =>
          (finEffs ++ [.logError "Couldn't decode the spec from the annotation."],
            .ret requeueDelaySec (some (.other m)))
        | .ok spec =>
          let v := validateSpec (some spec)
          let vEffs := v.1.map Eff.logInfo
          match v.2 with
          | some msg =>
            (finEffs ++ vEffs ++ [.logError "Invalid spec"],
              .ret requeueDelaySec (some (.other msg)))
          | none =>
            match sts.deletionTimestamp with
            | some _ =>
              let d := deletePath w spec sts
              match d.2 with
              | some e =>
                (finEffs ++ vEffs ++ d.1 ++ [.logError "Failed to delete resources."],
                  .ret requeueDelaySec (some e))
              | none => (finEffs ++ vEffs ++ d.1, .ret 0 none)
            | none =>
              let live := reconcileLive w sts spec
              (finEffs ++ vEffs ++ live.1, live.2)

/-- Claim-side (C4): the violation list as the spec describes it — all
consumer-entry violations in consumer-list order, then the emptiness
violation, then all subnet violations in subnet-list order, with no
short-circuiting. -/
def specViolations (s : Spec) : List String :=
  (s.ConsumerAcceptList.enum.flatMap fun ic => consumerEntryErrors ic.1 ic.2) ++
  (if s.NatSubnetFQNs.length = 0 then [errNatEmpty] else []) ++
  (s.NatSubnetFQNs.enum.flatMap fun si =>
    if subnetFQNMatches si.2 then [] else [errBadSubnet si.1 si.2])

/-- Claim-side (C5): a consumer descriptor sets exactly one of the two
identifiers. -/
def exactlyOneIdentifier (c : Consumer) : Prop :=
  (c.NetworkFQN ≠ none ∧ c.ProjectIdOrNum = none) ∨
  (c.NetworkFQN = none ∧ c.ProjectIdOrNum ≠ none)

/-- Claim-side (C3, amended): the condition under which the firewall is
left untouched — exactly one non-nil allow rule, a non-empty port list,
protocol `tcp`, as many listed ports as distinct desired ports, and every
listed port a member of the desired port set (as decimal strings). -/
def firewallUpToDate (fw : Option Firewall) (ports : List Int) : Prop :=
  ∃ rule, fw = some { Allowed := [some rule] } ∧
    rule.IPProtocol = some "tcp" ∧ rule.Ports ≠ [] ∧
    rule.Ports.length = (desiredPortStrs ports).length ∧
    ∀ p ∈ rule.Ports, p ∈ desiredPortStrs ports

theorem foldlConsAcc {α : Type} (l acc : List α) :
    l.foldl (fun m x => x :: m) acc = l.reverse ++ acc := by
  induction l generalizing acc with
  | nil => simp
  | cons a t ih => simp [List.foldl_cons, ih]

theorem foldlSnocFilter {α : Type} (p : α → Bool) (l acc : List α) :
    l.foldl (fun d x => if p x then d else d ++ [x]) acc =
      acc ++ l.filter (fun x => !p x) := by
  induction l generalizing acc with
  | nil => simp
  | cons a t ih =>
    by_cases h : p a <;> simp [List.foldl_cons, h, ih, List.filter_cons]

theorem getObsoletePortMappings_eq_filter (expected actual : List PortMapping) :
    getObsoletePortMappings expected actual =
      actual.filter fun pm => decide (pm ∉ expected) := by
  unfold getObsoletePortMappings
  rw [foldlConsAcc, foldlSnocFilter]
  simp only [List.append_nil, List.nil_append]
  apply List.filter_congr
  intro a _
  simp [List.contains, List.mem_reverse]

/-- C1: `getObsoletePortMappings(expected, actual)` returns exactly the
elements of `actual` whose `(Port, Instance, InstancePort)` triple does not
occur in `expected`; it is empty when every element of `actual` occurs in
`expected`, it is all of `actual` when the two lists share no element, and
applied to a list against itself it is empty. -/
theorem getObsoletePortMappings_correct (expected actual xs : List PortMapping) :
    getObsoletePortMappings expected actual =
      (actual.filter fun pm => decide (pm ∉ expected)) ∧
    ((∀ pm ∈ actual, pm ∈ expected) → getObsoletePortMappings expected actual = []) ∧
    ((∀ pm ∈ actual, pm ∉ expected) → getObsoletePortMappings expected actual = actual) ∧
    getObsoletePortMappings xs xs = [] := by
  refine ⟨getObsoletePortMappings_eq_filter expected actual, ?_, ?_, ?_⟩
  · intro h
    rw [getObsoletePortMappings_eq_filter]
    simp only [List.filter_eq_nil_iff]
    intro a ha
    simp [h a ha]
  · intro h
    rw [getObsoletePortMappings_eq_filter]
    rw [List.filter_eq_self]
    intro a ha
    simp [h a ha]
  · rw [getObsoletePortMappings_eq_filter]
    simp only [List.filter_eq_nil_iff]
    intro a ha
    simp [ha]

def pmA : PortMapping := { Port := 80, Instance := "instance1", InstancePort := 8080 }

def pmB : PortMapping := { Port := 443, Instance := "instance2", InstancePort := 8443 }

/-- Witness for C1 at concrete inputs. -/
theorem getObsoletePortMappings_correct_witness :
    getObsoletePortMappings [pmA] [pmA, pmB] = [pmB] ∧
    getObsoletePortMappings [pmA] [pmA] = [] := by
  constructor
  · rw [(getObsoletePortMappings_correct [pmA] [pmA, pmB] []).1]
    decide
  · exact (getObsoletePortMappings_correct [pmA] [pmA] []).2.1 (by decide)

theorem wrap32_eq_self {x : Int} (h0 : 0 ≤ x) (h1 : x < 2 ^ 31) : wrap32 x = x := by
  unfold wrap32
  rw [Int.emod_eq_of_lt (by omega) (by omega)]
  omega

/-- One replica's block of mappings, with the `int32` wraps the code
performs. -/
def mappingBlock (nodePorts : List (String × PortConfig)) (instF : Nat → String)
    (k : Nat) : List PortMapping :=
  nodePorts.map fun q =>
    { Port := wrap32 (q.2.StartingPort + wrap32 (k : Int)), Instance := instF k,
      InstancePort := q.2.NodePort }

theorem podMappings_nil (nodes : List (String × Node)) (pod : Pod) (i : Int) :
    podMappings nodes pod i [] = .ok [] := rfl

theorem podMappings_cons (nodes : List (String × Node)) (pod : Pod) (i : Int)
    (nm : String) (p : PortConfig) (rest : List (String × PortConfig)) :
    podMappings nodes pod i ((nm, p) :: rest) =
      match mapLookup nodes pod.nodeName with
      | none => .crash
      | some node =>
        match fqInstaceName node.providerID with
        | .error e => .err e
        | .ok inst =>
          match podMappings nodes pod i rest with
          | .ok ms =>
            .ok ({ Port := wrap32 (p.StartingPort + wrap32 i), Instance := inst,
                   InstancePort := p.NodePort } :: ms)
          | r => r := rfl

theorem getPortMappingsFrom_nil (nodePorts : List (String × PortConfig))
    (nodes : List (String × Node)) (i : Int) :
    getPortMappingsFrom nodePorts nodes [] i = .ok [] := rfl

theorem getPortMappingsFrom_cons (nodePorts : List (String × PortConfig))
    (nodes : List (String × Node)) (pod : Pod) (rest : List Pod) (i : Int) :
    getPortMappingsFrom nodePorts nodes (pod :: rest) i =
      match podMappings nodes pod i nodePorts with
      | .ok ms =>
        match getPortMappingsFrom nodePorts nodes rest (i + 1) with
        | .ok tail => .ok (ms ++ tail)
        | r => r
      | .err e => .err e
      | .crash => .crash := rfl

theorem podMappings_ok (nodes : List (String × Node)) (pod : Pod) (instF : Nat → String)
    (k : Nat) (node : Node)
    (hn : mapLookup nodes pod.nodeName = some node)
    (hf : fqInstaceName node.providerID = .ok (instF k)) :
    ∀ nodePorts : List (String × PortConfig),
      podMappings nodes pod (k : Int) nodePorts = .ok (mappingBlock nodePorts instF k) := by
  intro nodePorts
  induction nodePorts with
  | nil => rw [podMappings_nil]; simp [mappingBlock]
  | cons q rest ih =>
    obtain ⟨nm, p⟩ := q
    rw [podMappings_cons, hn]
    simp [hf, ih, mappingBlock]

theorem getPortMappingsFrom_ok (nodePorts : List (String × PortConfig))
    (nodes : List (String × Node)) (nodeF : Nat → Node) (instF : Nat → String) :
    ∀ (pods : List Pod) (off : Nat),
      (∀ t (ht : t < pods.length),
        mapLookup nodes (pods.get ⟨t, ht⟩).nodeName = some (nodeF (off + t)) ∧
        fqInstaceName (nodeF (off + t)).providerID = .ok (instF (off + t))) →
      getPortMappingsFrom nodePorts nodes pods (off : Int) =
        .ok ((List.range' off pods.length).flatMap fun k => mappingBlock nodePorts instF k) := by
  intro pods
  induction pods with
  | nil => intro off _; rw [getPortMappingsFrom_nil]; simp
  | cons pod rest ih =>
    intro off h
    have h0 := h 0 (by simp)
    simp only [List.get] at h0
    have hpod := podMappings_ok nodes pod instF (off + 0)
      (nodeF (off + 0)) h0.1 h0.2 nodePorts
    have hrest : ∀ t (ht : t < rest.length),
        mapLookup nodes (rest.get ⟨t, ht⟩).nodeName = some (nodeF ((off + 1) + t)) ∧
        fqInstaceName (nodeF ((off + 1) + t)).providerID = .ok (instF ((off + 1) + t)) := by
      intro t ht
      have hx := h (t + 1) (by simpa using Nat.succ_lt_succ ht)
      have harith : off + (t + 1) = (off + 1) + t := by omega
      rw [harith] at hx
      simpa using hx
    have hih := ih (off + 1) hrest
    have hcast : ((off : Int) + 1) = ((off + 1 : Nat) : Int) := by push_cast; ring
    have hpod0 : podMappings nodes pod (off : Int) nodePorts =
        .ok (mappingBlock nodePorts instF off) := by
      simpa using hpod
    rw [getPortMappingsFrom_cons, hpod0, hcast, hih]
    rw [show (pod :: rest).length = rest.length + 1 from rfl, List.range'_succ]
    simp [List.flatMap_cons]

theorem flatMapLengthConst {α β : Type} (m : Nat) :
    ∀ (l : List α) (f : α → List β), (∀ a ∈ l, (f a).length = m) →
      (l.flatMap f).length = l.length * m := by
  intro l
  induction l with
  | nil => simp
  | cons a t ih =>
    intro f hf
    simp only [List.flatMap_cons, List.length_append, List.length_cons]
    rw [hf a (by simp), ih f (fun x hx => hf x (by simp [hx]))]
    ring

theorem flatMapGetConst {α β : Type} (m : Nat) :
    ∀ (l : List α) (f : α → List β), (∀ a ∈ l, (f a).length = m) →
      ∀ i j (hi : i < l.length), j < m →
        (l.flatMap f)[i * m + j]? = (f (l.get ⟨i, hi⟩))[j]? := by
  intro l
  induction l with
  | nil => intro f _ i j hi _; exact absurd hi (Nat.not_lt_zero i)
  | cons a t ih =>
    intro f hf i j hi hj
    cases i with
    | zero =>
      simp only [List.flatMap_cons]
      rw [List.getElem?_append_left (by rw [hf a (by simp)]; omega)]
      simp
    | succ i2 =>
      simp only [List.flatMap_cons]
      rw [show (i2 + 1) * m + j = m + (i2 * m + j) by ring]
      rw [List.getElem?_append_right (by rw [hf a (by simp)]; omega)]
      have harith : m + (i2 * m + j) - (f a).length = i2 * m + j := by
        rw [hf a (by simp)]; omega
      rw [harith]
      have hi2 : i2 < t.length := by simpa using hi
      have := ih f (fun x hx => hf x (by simp [hx])) i2 j hi2 hj
      simpa using this

theorem mappingBlocksEqExpected (nodePorts : List (String × PortConfig))
    (instF : Nat → String) (n : Nat)
    (hrange : ∀ q ∈ nodePorts, 0 ≤ q.2.StartingPort ∧ q.2.StartingPort + (n : Int) < 2 ^ 31) :
    ((List.range n).flatMap fun k => mappingBlock nodePorts instF k) =
      expectedMappings nodePorts instF n := by
  unfold expectedMappings
  apply List.flatMap_congr
  intro k hk
  have hk2 : k < n := List.mem_range.mp hk
  unfold mappingBlock
  apply List.map_congr_left
  intro q hq
  obtain ⟨h0, h1⟩ := hrange q hq
  have h31 : (2 : Int) ^ 31 = 2147483648 := by norm_num
  have hkn : (k : Int) < (n : Int) := by exact_mod_cast hk2
  have hk0 : (0 : Int) ≤ (k : Int) := by positivity
  have hw1 : wrap32 (k : Int) = (k : Int) := wrap32_eq_self hk0 (by omega)
  rw [hw1, wrap32_eq_self (by omega) (by omega)]

/-- C2: for a specification with named ports and scheduled replicas whose
host instance identifiers all parse, `getPortMappings` succeeds with
exactly `n * m` mappings; the replica at list position `i` contributes,
for each named port `p` (at map position `j`), the mapping with
`Port = p.StartingPort + i`, `Instance` = that replica's resolved host
instance reference and `InstancePort = p.NodePort` — so for each named
port the `Port` values form a contiguous run starting at its starting
port. (The range hypothesis keeps the `int32` arithmetic exact.) -/
theorem getPortMappings_correct (spec : Spec) (nodes : List (String × Node)) (pods : List Pod)
    (nodeF : Nat → Node) (instF : Nat → String)
    (hres : ∀ t (ht : t < pods.length),
      mapLookup nodes (pods.get ⟨t, ht⟩).nodeName = some (nodeF t) ∧
      fqInstaceName (nodeF t).providerID = .ok (instF t))
    (hrange : ∀ q ∈ spec.NodePorts,
      0 ≤ q.2.StartingPort ∧ q.2.StartingPort + (pods.length : Int) < 2 ^ 31) :
    getPortMappings spec nodes pods = .ok (expectedMappings spec.NodePorts instF pods.length) ∧
    (expectedMappings spec.NodePorts instF pods.length).length =
      pods.length * spec.NodePorts.length ∧
    (∀ i j (hi : i < pods.length) (hj : j < spec.NodePorts.length),
      (expectedMappings spec.NodePorts instF pods.length)[i * spec.NodePorts.length + j]? =
        some { Port := (spec.NodePorts.get ⟨j, hj⟩).2.StartingPort + (i : Int),
               Instance := instF i,
               InstancePort := (spec.NodePorts.get ⟨j, hj⟩).2.NodePort }) := by
  refine ⟨?_, ?_, ?_⟩
  · have hres0 : ∀ t (ht : t < pods.length),
        mapLookup nodes (pods.get ⟨t, ht⟩).nodeName = some (nodeF (0 + t)) ∧
        fqInstaceName (nodeF (0 + t)).providerID = .ok (instF (0 + t)) := by
      intro t ht
      simpa using hres t ht
    have h := getPortMappingsFrom_ok spec.NodePorts nodes nodeF instF pods 0 hres0
    unfold getPortMappings
    have hz : ((0 : Nat) : Int) = (0 : Int) := by norm_num
    rw [← hz, h]
    rw [show List.range' 0 pods.length = List.range pods.length from
      (List.range_eq_range' pods.length).symm]
    rw [mappingBlocksEqExpected spec.NodePorts instF pods.length hrange]
  · unfold expectedMappings
    rw [flatMapLengthConst spec.NodePorts.length _ _ (by intro a _; simp)]
    simp
  · intro i j hi hj
    unfold expectedMappings
    have hi2 : i < (List.range pods.length).length := by simpa using hi
    rw [flatMapGetConst spec.NodePorts.length _ _ (by intro a _; simp) i j hi2 hj]
    rw [List.get_range]
    rw [List.getElem?_map]
    rw [List.getElem?_eq_getElem hj]
    rfl

def node0C2 : Node :=
  { name := "node-0", hostname := "node-0",
    providerID := "gce://my-project/us-east1-a/node-0" }

def node1C2 : Node :=
  { name := "node-1", hostname := "node-1",
    providerID := "gce://my-project/us-east1-b/node-1" }

def specC2 : Spec :=
  { pfx := "prefix-", IP := none, GlobalAccess := none, ConsumerAcceptList := [],
    NatSubnetFQNs := ["projects/p/regions/us-east1/subnetworks/s"],
    NodePorts := [("app", { NodePort := 30000, ContainerPort := 8080, StartingPort := 30000 })] }

def podsC2 : List Pod :=
  [{ ns := "default", name := "pod-0", nodeName := "node-0" },
   { ns := "default", name := "pod-1", nodeName := "node-1" }]

def nodesC2 : List (String × Node) := [("node-0", node0C2), ("node-1", node1C2)]

def nodeFC2 : Nat → Node := fun t => if t = 0 then node0C2 else node1C2

def instFC2 : Nat → String := fun t =>
  if t = 0 then "projects/my-project/zones/us-east1-a/instances/node-0"
  else "projects/my-project/zones/us-east1-b/instances/node-1"

/-- Witness for C2 at a concrete two-replica, one-port input. -/
theorem getPortMappings_correct_witness :
    getPortMappings specC2 nodesC2 podsC2 =
      .ok (expectedMappings specC2.NodePorts instFC2 podsC2.length) ∧
    (expectedMappings specC2.NodePorts instFC2 podsC2.length).length =
      podsC2.length * specC2.NodePorts.length := by
  have h := getPortMappings_correct specC2 nodesC2 podsC2 nodeFC2 instFC2
    (by
      intro t ht
      have ht2 : t < 2 := by simpa [podsC2] using ht
      interval_cases t
      · exact ⟨rfl, by decide⟩
      · exact ⟨rfl, by decide⟩)
    (by decide)
  exact ⟨h.1, h.2.1⟩
theorem needsUpdate_single (rule : Allowed) (ports : List Int) :
    FirewallNeedsUpdate (some { Allowed := [some rule] }) ports = false ↔
      (rule.IPProtocol = some "tcp" ∧ rule.Ports ≠ [] ∧
       rule.Ports.length = (desiredPortStrs ports).length ∧
       ∀ p ∈ rule.Ports, p ∈ desiredPortStrs ports) := by
  unfold FirewallNeedsUpdate
  cases hip : rule.IPProtocol with
  | none => simp [hip]
  | some proto =>
    by_cases h0 : rule.Ports.length = 0
    · simp [h0, List.length_eq_zero.mp h0]
    · by_cases hpt : proto = "tcp"
      · subst hpt
        by_cases hlen : rule.Ports.length = (desiredPortStrs ports).length
        · have hne : rule.Ports ≠ [] := by
            intro hh; exact h0 (by simp [hh])
          have hd : desiredPortStrs ports ≠ [] := by
            intro hh; rw [hh] at hlen; simp at hlen; exact h0 (by simp [hlen])
          simp [h0, hip, hlen, List.any_eq_true, List.contains, hne, hd]
        · simp [h0, hip, hlen]
      · simp [h0, hip, hpt]

/-- C3 (amended): `FirewallNeedsUpdate` returns `false` exactly when the
firewall has one non-nil allow rule with non-empty port list, protocol
`tcp`, as many listed ports as distinct desired ports, and every listed
port inside the desired set; and when the firewall was fetched
successfully, `reconcileFirewall` issues no update call if the predicate
is `false` (and no error), and exactly one update call carrying the full
desired port set if it is `true`. -/
theorem firewall_staleness_and_update (fw : Option Firewall) (ports : List Int)
    (o : GcpOutcomes) (name : String) (hostnames : List String) :
    (FirewallNeedsUpdate fw ports = false ↔ firewallUpToDate fw ports) ∧
    (o.getFirewall = .ok fw →
      ((FirewallNeedsUpdate fw ports = false →
        gcpCalls (reconcileFirewall o name ports hostnames).1 = [.getFirewall name] ∧
        (reconcileFirewall o name ports hostnames).2 = none) ∧
      (FirewallNeedsUpdate fw ports = true →
        gcpCalls (reconcileFirewall o name ports hostnames).1 =
          [.getFirewall name, .updateFirewall name ports hostnames]))) := by
  constructor
  · rcases fw with _ | ⟨al⟩
    · simp [FirewallNeedsUpdate, firewallUpToDate]
    · rcases al with _ | ⟨r?, rest⟩
      · simp [FirewallNeedsUpdate, firewallUpToDate]
      · rcases rest with _ | ⟨r2, rest2⟩
        · rcases r? with _ | rule
          · simp [FirewallNeedsUpdate, firewallUpToDate]
          · rw [needsUpdate_single]
            unfold firewallUpToDate
            constructor
            · rintro ⟨h1, h2, h3, h4⟩
              exact ⟨rule, rfl, h1, h2, h3, h4⟩
            · rintro ⟨rule2, heq, h1, h2, h3, h4⟩
              simp only [Option.some.injEq, Firewall.mk.injEq, List.cons.injEq,
                and_true] at heq
              rw [heq]
              exact ⟨h1, h2, h3, h4⟩
        · simp [FirewallNeedsUpdate, firewallUpToDate]
  · intro hget
    constructor
    · intro hfalse
      simp [reconcileFirewall, hget, hfalse, gcpCalls]
    · intro htrue
      cases hupd : o.updateFirewall with
      | some e => simp [reconcileFirewall, hget, htrue, hupd, gcpCalls]
      | none => simp [reconcileFirewall, hget, htrue, hupd, gcpCalls]

def fwDup : Firewall :=
  { Allowed := [some { IPProtocol := some "tcp", Ports := ["80", "80"] }] }

/-- Counterexample to C3 as stated: with desired port set `{80, 81}` and a
one-rule TCP firewall listing `["80", "80"]`, the predicate reports no
update needed although the listed ports, as a string multiset, differ from
the desired port set. -/
theorem FirewallNeedsUpdate_multiset_cex :
    FirewallNeedsUpdate (some fwDup) [80, 81] = false ∧
    ¬ List.Perm ["80", "80"] (desiredPortStrs [80, 81]) := by
  constructor
  · decide
  · decide

def fwOk : Firewall :=
  { Allowed := [some { IPProtocol := some "tcp", Ports := ["80"] }] }

def gcpW3 : GcpOutcomes :=
  { project := "p", region := "r", getFirewall := .ok (some fwOk), updateFirewall := none,
    createFirewall := none, getNEG := .error .notFound, createNEG := none,
    getBackend := .error .notFound, createBackend := none, listEndpoints := .ok [],
    detachEndpoints := none, attachEndpoints := none, getFwdRule := .error .notFound,
    createFwdRule := none, getSvcAtt := .error .notFound, createSvcAtt := none,
    deleteSvcAtt := none, deleteFwdRule := none, deleteBackend := none, deleteNEG := none,
    deleteFirewall := none }

/-- Witness for C3 (amended) at a concrete up-to-date firewall. -/
theorem firewall_staleness_and_update_witness :
    firewallUpToDate (some fwOk) [80] ∧
    gcpCalls (reconcileFirewall gcpW3 "fw" [80] []).1 = [.getFirewall "fw"] ∧
    (reconcileFirewall gcpW3 "fw" [80] []).2 = none := by
  have h := firewall_staleness_and_update (some fwOk) [80] gcpW3 "fw" []
  have hfalse : FirewallNeedsUpdate (some fwOk) [80] = false := by decide
  exact ⟨h.1.mp hfalse, ((h.2 rfl).1 hfalse).1, ((h.2 rfl).1 hfalse).2⟩

theorem foldlAppendFlatMap {α β : Type} (f : α → List β) :
    ∀ (l : List α) (acc : List β),
      l.foldl (fun a x => a ++ f x) acc = acc ++ l.flatMap f := by
  intro l
  induction l with
  | nil => intro acc; simp
  | cons a t ih => intro acc; simp [List.foldl_cons, ih, List.flatMap_cons]

theorem validateSpecErrors_eq (s : Spec) : validateSpecErrors s = specViolations s := by
  unfold validateSpecErrors specViolations
  simp only [foldlAppendFlatMap, List.nil_append, List.append_assoc]

/-- C4: `validateSpec` rejects a nil spec with `spec is nil`; otherwise it
accumulates every violation without short-circuiting — all consumer-entry
violations in consumer-list order, then the empty-subnet-list violation,
then all subnet violations in subnet-list order — and joins them with
`"; "` into one message (no error when there is no violation); every
entry-level violation names its entry's index. -/
theorem validateSpec_correct (s : Spec) :
    validateSpec none = ([], some "spec is nil") ∧
    validateSpecErrors s = specViolations s ∧
    (validateSpec (some s)).2 =
      (if specViolations s = [] then none
       else some (String.intercalate "; " (specViolations s))) ∧
    (∀ i c, s.ConsumerAcceptList[i]? = some c → c.NetworkFQN = none →
      c.ProjectIdOrNum = none → errConsumerNeither i ∈ specViolations s) ∧
    (∀ i v, s.NatSubnetFQNs[i]? = some v → subnetFQNMatches v = false →
      errBadSubnet i v ∈ specViolations s) := by
  refine ⟨rfl, validateSpecErrors_eq s, ?_, ?_, ?_⟩
  · show (let es := validateSpecErrors s
      (validateSpecLogs s, if es.isEmpty then none else some (String.intercalate "; " es))).2 = _
    simp only [validateSpecErrors_eq s]
    by_cases h : specViolations s = [] <;> simp [h]
  · intro i c hic hn hp
    have hmem : errConsumerNeither i ∈
        s.ConsumerAcceptList.enum.flatMap fun ic => consumerEntryErrors ic.1 ic.2 := by
      rw [List.mem_flatMap]
      exact ⟨(i, c), List.mk_mem_enum_iff_getElem?.mpr hic,
        by simp [consumerEntryErrors, hn, hp]⟩
    unfold specViolations
    simp only [List.mem_append]
    exact Or.inl (Or.inl hmem)
  · intro i v hiv hm
    have hmem : errBadSubnet i v ∈
        s.NatSubnetFQNs.enum.flatMap fun si =>
          if subnetFQNMatches si.2 then [] else [errBadSubnet si.1 si.2] := by
      rw [List.mem_flatMap]
      exact ⟨(i, v), List.mk_mem_enum_iff_getElem?.mpr hiv, by simp [hm]⟩
    unfold specViolations
    simp only [List.mem_append]
    exact Or.inr hmem

def specC4 : Spec :=
  { pfx := "p", IP := none, GlobalAccess := none,
    ConsumerAcceptList := [{ NetworkFQN := none, ConnectionLimit := 0, ProjectIdOrNum := none }],
    NatSubnetFQNs := [], NodePorts := [] }

/-- Witness for C4: a spec with one identifier-less consumer and an empty
subnet list yields both violations joined by `"; "`, in discovery order. -/
theorem validateSpec_correct_witness :
    (validateSpec (some specC4)).2 = some (errConsumerNeither 0 ++ "; " ++ errNatEmpty) ∧
    errConsumerNeither 0 ∈ specViolations specC4 ∧
    validateSpec none = ([], some "spec is nil") := by
  have h := validateSpec_correct specC4
  refine ⟨?_, ?_, h.1⟩
  · rw [h.2.2.1]
    decide
  · exact h.2.2.2.1 0 { NetworkFQN := none, ConnectionLimit := 0, ProjectIdOrNum := none }
      (by decide) rfl rfl

def specC5cex : Spec :=
  { pfx := "p", IP := none, GlobalAccess := none,
    ConsumerAcceptList := [{ NetworkFQN := some "bad", ConnectionLimit := 1, ProjectIdOrNum := none }],
    NatSubnetFQNs := ["projects/p/regions/r/subnetworks/s"], NodePorts := [] }

/-- Counterexample to C5 as stated: a spec with a non-empty, well-formed
subnet list and one consumer that sets exactly one identifier — a
malformed network reference — is still rejected by `validateSpec`. -/
theorem validateSpec_exactlyOne_cex :
    specC5cex.NatSubnetFQNs ≠ [] ∧
    (∀ sn ∈ specC5cex.NatSubnetFQNs, subnetFQNMatches sn = true) ∧
    (∀ c ∈ specC5cex.ConsumerAcceptList, exactlyOneIdentifier c) ∧
    (validateSpec (some specC5cex)).2 ≠ none := by
  refine ⟨by decide, by decide, ?_, by decide⟩
  intro c hc
  simp only [specC5cex, List.mem_singleton] at hc
  rw [hc]
  exact Or.inl ⟨by decide, rfl⟩

/-- C5 (amended): a specification with a non-empty list of well-formed
subnet references, whose consumers each set exactly one identifier and
whose set network references are well-formed, passes validation; an empty
consumer list or a zero connection limit never causes an error — they are
logged as warnings only. -/
theorem validateSpec_valid_ok (s : Spec)
    (h1 : s.NatSubnetFQNs ≠ [])
    (h2 : ∀ sn ∈ s.NatSubnetFQNs, subnetFQNMatches sn = true)
    (h3 : ∀ c ∈ s.ConsumerAcceptList, exactlyOneIdentifier c)
    (h4 : ∀ c ∈ s.ConsumerAcceptList, ∀ v, c.NetworkFQN = some v → networkFQNMatches v = true) :
    (validateSpec (some s)).2 = none ∧
    (∀ c ∈ s.ConsumerAcceptList, c.ConnectionLimit = 0 →
      "connection_limit is not set, no connections will be allowed from it."
        ∈ (validateSpec (some s)).1) ∧
    (s.ConsumerAcceptList = [] →
      "consumer_accept_list is empty, no incoming connections will be allowed."
        ∈ (validateSpec (some s)).1) := by
  have herrs : validateSpecErrors s = [] := by
    rw [validateSpecErrors_eq]
    unfold specViolations
    rw [List.append_eq_nil, List.append_eq_nil]
    refine ⟨⟨?_, ?_⟩, ?_⟩
    · rw [List.flatMap_eq_nil_iff]
      rintro ⟨i, c⟩ hm
      have hc : c ∈ s.ConsumerAcceptList :=
        List.getElem?_mem (List.mk_mem_enum_iff_getElem?.mp hm)
      rcases h3 c hc with ⟨hn, hp⟩ | ⟨hn, hp⟩
      · obtain ⟨v, hv⟩ := Option.ne_none_iff_exists'.mp hn
        simp [consumerEntryErrors, hn, hp, hv, h4 c hc v hv]
      · simp [consumerEntryErrors, hn, hp]
    · have : s.NatSubnetFQNs.length ≠ 0 := by
        intro hh
        exact h1 (List.length_eq_zero.mp hh)
      simp [this]
    · rw [List.flatMap_eq_nil_iff]
      rintro ⟨i, v⟩ hm
      have hv : v ∈ s.NatSubnetFQNs :=
        List.getElem?_mem (List.mk_mem_enum_iff_getElem?.mp hm)
      simp [h2 v hv]
  have hlogs : (validateSpec (some s)).1 = validateSpecLogs s := rfl
  refine ⟨?_, ?_, ?_⟩
  · show (let es := validateSpecErrors s
      (validateSpecLogs s, if es.isEmpty then none else some (String.intercalate "; " es))).2 = _
    simp [herrs]
  · intro c hc hlim
    rw [hlogs]
    unfold validateSpecLogs
    rw [foldlAppendFlatMap]
    simp only [List.nil_append]
    apply List.mem_append_right
    rw [List.mem_flatMap]
    exact ⟨c, hc, by simp [consumerEntryLogs, hlim]⟩
  · intro hempty
    rw [hlogs]
    unfold validateSpecLogs
    rw [foldlAppendFlatMap]
    apply List.mem_append_left
    simp [hempty]

def specC5ok : Spec :=
  { pfx := "p", IP := none, GlobalAccess := none,
    ConsumerAcceptList :=
      [{ NetworkFQN := some "projects/p/global/networks/n", ConnectionLimit := 0,
         ProjectIdOrNum := none }],
    NatSubnetFQNs := ["projects/p/regions/r/subnetworks/s"], NodePorts := [] }

/-- Witness for C5 (amended): a well-formed spec with a zero connection
limit validates cleanly, and the zero limit is logged, not rejected. -/
theorem validateSpec_valid_ok_witness :
    (validateSpec (some specC5ok)).2 = none ∧
    "connection_limit is not set, no connections will be allowed from it."
      ∈ (validateSpec (some specC5ok)).1 := by
  have h := validateSpec_valid_ok specC5ok (by decide) (by decide)
    (by
      intro c hc
      simp only [specC5ok, List.mem_singleton] at hc
      rw [hc]
      exact Or.inl ⟨by decide, rfl⟩)
    (by
      intro c hc v hv
      simp only [specC5ok, List.mem_singleton] at hc
      rw [hc] at hv
      simp only [Option.some.injEq] at hv
      rw [← hv]
      decide)
  refine ⟨h.1, h.2.1
    { NetworkFQN := some "projects/p/global/networks/n", ConnectionLimit := 0,
      ProjectIdOrNum := none } (by simp [specC5ok]) rfl⟩

theorem runSteps_all_ok :
    ∀ l : List (String × (List Eff × Option Err)), (∀ st ∈ l, st.2.2 = none) →
      runSteps l = ((l.map fun st => st.2.1).flatten, none) := by
  intro l
  induction l with
  | nil => intro _; simp [runSteps]
  | cons st rest ih =>
    intro h
    obtain ⟨nm, effs, res⟩ := st
    have hres : res = none := h (nm, effs, res) (by simp)
    subst hres
    simp only [runSteps, ih (fun x hx => h x (by simp [hx])), List.map_cons,
      List.flatten_cons]

theorem runSteps_abort (nm : String) (effs : List Eff) (e : Err)
    (post : List (String × (List Eff × Option Err))) :
    ∀ pre : List (String × (List Eff × Option Err)), (∀ st ∈ pre, st.2.2 = none) →
      runSteps (pre ++ (nm, (effs, some e)) :: post) =
        ((pre.map fun st => st.2.1).flatten ++ effs ++
          [.logError ("Failed to reconcile " ++ nm)], some e) := by
  intro pre
  induction pre with
  | nil => intro _; simp [runSteps]
  | cons st rest ih =>
    intro h
    obtain ⟨nm2, effs2, res2⟩ := st
    have hres : res2 = none := h (nm2, effs2, res2) (by simp)
    subst hres
    simp only [List.cons_append, runSteps, List.append_eq,
      ih (fun x hx => h x (by simp [hx])), List.map_cons, List.flatten_cons,
      List.append_assoc]

/-- C6: within a pass, the `reconcile` orchestrator runs the six resource
steps strictly in the order firewall, NEG, backend, endpoints, forwarding
rule, service attachment; the first failing step aborts the pass — the
trace contains only the preceding steps' effects and the failing step's,
followed by a log naming the failing resource — and the failing step's
error is the one returned; when every step succeeds the trace is the
concatenation of all six steps' effects. -/
theorem reconcile_order_and_abort (o : GcpOutcomes) (s : Spec) (ports : List Int)
    (mappings : List PortMapping) (hostnames : List String) :
    ((reconcilers o s ports mappings hostnames).map Prod.fst =
      ["firewall", "NEG", "backend", "endpoints", "forwarding rule",
       "service attachment"]) ∧
    (∀ pre nm effs e post,
      reconcilers o s ports mappings hostnames = pre ++ (nm, (effs, some e)) :: post →
      (∀ st ∈ pre, st.2.2 = none) →
      reconcileChain o s ports mappings hostnames =
        ((pre.map fun st => st.2.1).flatten ++ effs ++
          [.logError ("Failed to reconcile " ++ nm)], some e)) ∧
    ((∀ st ∈ reconcilers o s ports mappings hostnames, st.2.2 = none) →
      reconcileChain o s ports mappings hostnames =
        (((reconcilers o s ports mappings hostnames).map fun st => st.2.1).flatten,
          none)) := by
  refine ⟨rfl, ?_, ?_⟩
  · intro pre nm effs e post hdec hpre
    unfold reconcileChain
    rw [hdec]
    exact runSteps_abort nm effs e post pre hpre
  · intro h
    exact runSteps_all_ok _ h

def gcpAllOk : GcpOutcomes :=
  { project := "my-project", region := "us-east1", getFirewall := .error .notFound,
    updateFirewall := none, createFirewall := none, getNEG := .error .notFound,
    createNEG := none, getBackend := .error .notFound, createBackend := none,
    listEndpoints := .ok [], detachEndpoints := none, attachEndpoints := none,
    getFwdRule := .error .notFound, createFwdRule := none, getSvcAtt := .error .notFound,
    createSvcAtt := none, deleteSvcAtt := none, deleteFwdRule := none, deleteBackend := none,
    deleteNEG := none, deleteFirewall := none }

def specC6 : Spec :=
  { pfx := "prefix-", IP := none, GlobalAccess := none, ConsumerAcceptList := [],
    NatSubnetFQNs := ["projects/p/regions/r/subnetworks/s"],
    NodePorts := [("app", { NodePort := 30000, ContainerPort := 8080, StartingPort := 30000 })] }

/-- Witness for C6: with every remote call succeeding, the chain runs all
six steps and returns no error. -/
theorem reconcile_order_and_abort_witness :
    reconcileChain gcpAllOk specC6 [30000] [] [] =
      (((reconcilers gcpAllOk specC6 [30000] [] []).map fun st => st.2.1).flatten, none) :=
  (reconcile_order_and_abort gcpAllOk specC6 [30000] [] []).2.2 (by decide)

theorem runDeleters_ok :
    ∀ l : List (String × Call × Option Err),
      (∀ d ∈ l, d.2.2 = none ∨ d.2.2 = some Err.notFound) →
      gcpCalls (runDeleters l).1 = l.map (fun d => d.2.1) ∧ (runDeleters l).2 = none := by
  intro l
  induction l with
  | nil => intro _; simp [runDeleters, gcpCalls]
  | cons d rest ih =>
    intro h
    obtain ⟨nm, c, res⟩ := d
    have hres := h (nm, c, res) (by simp)
    have ihr := ih fun x hx => h x (by simp [hx])
    rcases hres with hres | hres <;> simp only at hres <;> subst hres <;>
      simp [runDeleters, gcpCalls, List.filterMap_cons, ihr.1, ihr.2, gcpCalls] at ihr ⊢ <;>
      exact ihr

theorem runDeleters_no_removeFin :
    ∀ l : List (String × Call × Option Err), Eff.removeFinalizer ∉ (runDeleters l).1 := by
  intro l
  induction l with
  | nil => simp [runDeleters]
  | cons d rest ih =>
    obtain ⟨nm, c, res⟩ := d
    match res with
    | none => simp [runDeleters, ih]
    | some .notFound => simp [runDeleters, ih]
    | some (.other m) => simp [runDeleters]

theorem runDeleters_none_imp :
    ∀ l : List (String × Call × Option Err), (runDeleters l).2 = none →
      ∀ d ∈ l, d.2.2 = none ∨ d.2.2 = some Err.notFound := by
  intro l
  induction l with
  | nil => intro _ d hd; cases hd
  | cons d0 rest ih =>
    obtain ⟨nm, c, res⟩ := d0
    match res with
    | none =>
      intro hr d hd
      rcases List.mem_cons.mp hd with rfl | hd2
      · exact Or.inl rfl
      · exact ih (by simpa [runDeleters] using hr) d hd2
    | some .notFound =>
      intro hr d hd
      rcases List.mem_cons.mp hd with rfl | hd2
      · exact Or.inr rfl
      · exact ih (by simpa [runDeleters] using hr) d hd2
    | some (.other m) =>
      intro hr
      simp [runDeleters] at hr

theorem runDeleters_abort (nm : String) (c : Call) (e : Err)
    (post : List (String × Call × Option Err)) (he : e ≠ .notFound) :
    ∀ pre : List (String × Call × Option Err),
      (∀ d ∈ pre, d.2.2 = none ∨ d.2.2 = some Err.notFound) →
      gcpCalls (runDeleters (pre ++ (nm, c, some e) :: post)).1 =
        pre.map (fun d => d.2.1) ++ [c] ∧
      (runDeleters (pre ++ (nm, c, some e) :: post)).2 = some e := by
  intro pre
  induction pre with
  | nil =>
    intro _
    match e, he with
    | .other m, _ => simp [runDeleters, gcpCalls, List.filterMap_cons]
  | cons d rest ih =>
    intro h
    obtain ⟨nm2, c2, res2⟩ := d
    have hres := h (nm2, c2, res2) (by simp)
    have ihr := ih fun x hx => h x (by simp [hx])
    rcases hres with hres | hres <;> simp only at hres <;> subst hres <;>
      simp [runDeleters, gcpCalls, List.filterMap_cons, ihr.1, ihr.2] at ihr ⊢ <;>
      exact ihr

/-- C7: the teardown deletes the five cloud resources strictly in the
order service attachment, forwarding rule, backend, NEG, firewall; a
NotFound outcome counts as success and the loop continues; any other error
aborts the remaining deletions and is returned; and the ownership
finalizer is removed only after all five deletions succeeded or were
already gone. -/
theorem delete_order_and_finalizer (w : WorldK) (s : Spec) (sts : Sts) :
    ((deleters w.gcp s.pfx).map Prod.fst =
      ["service attachment", "forwarding rule", "backend", "NEG", "firewall"]) ∧
    ((∀ d ∈ deleters w.gcp s.pfx, d.2.2 = none ∨ d.2.2 = some Err.notFound) →
      gcpCalls (deletePath w s sts).1 =
        [.deleteSvcAtt (svcAttName s.pfx), .deleteFwdRule (fwdRuleName s.pfx),
         .deleteBackend (backendName s.pfx), .deleteNEG (negName s.pfx),
         .deleteFirewall (firewallName s.pfx)] ∧
      (w.removeFinUpdate = none → (deletePath w s sts).2 = none) ∧
      (finalizer ∈ sts.finalizers → Eff.removeFinalizer ∈ (deletePath w s sts).1)) ∧
    (Eff.removeFinalizer ∈ (deletePath w s sts).1 →
      ∀ d ∈ deleters w.gcp s.pfx, d.2.2 = none ∨ d.2.2 = some Err.notFound) ∧
    (∀ pre nm c e post, deleters w.gcp s.pfx = pre ++ (nm, c, some e) :: post →
      e ≠ .notFound → (∀ d ∈ pre, d.2.2 = none ∨ d.2.2 = some Err.notFound) →
      (deletePath w s sts).2 = some e ∧
      gcpCalls (deletePath w s sts).1 = pre.map (fun d => d.2.1) ++ [c] ∧
      Eff.removeFinalizer ∉ (deletePath w s sts).1) := by
  refine ⟨rfl, ?_, ?_, ?_⟩
  · intro hall
    have hok := runDeleters_ok (deleters w.gcp s.pfx) hall
    rcases hr : runDeleters (deleters w.gcp s.pfx) with ⟨tr, res⟩
    rw [hr] at hok
    simp only at hok
    obtain ⟨htr, hres⟩ := hok
    subst hres
    refine ⟨?_, ?_, ?_⟩
    · have h1 : gcpCalls (deletePath w s sts).1 = gcpCalls tr := by
        cases hnp : w.deleteNodePortSvc <;>
          by_cases hfin : finalizer ∈ sts.finalizers <;>
            cases hrm : w.removeFinUpdate <;>
              simp [deletePath, hnp, hr, hfin, hrm, gcpCalls, List.filterMap_append,
                List.filterMap_cons]
      rw [h1, htr]
      rfl
    · intro hrm
      cases hnp : w.deleteNodePortSvc <;>
        by_cases hfin : finalizer ∈ sts.finalizers <;>
          simp [deletePath, hnp, hr, hfin, hrm]
    · intro hfin
      cases hnp : w.deleteNodePortSvc <;>
        cases hrm : w.removeFinUpdate <;>
          simp [deletePath, hnp, hr, hfin, hrm]
  · intro hmem
    rcases hr : runDeleters (deleters w.gcp s.pfx) with ⟨tr, res⟩
    cases res with
    | none =>
      apply runDeleters_none_imp
      rw [hr]
    | some e =>
      exfalso
      have htr := runDeleters_no_removeFin (deleters w.gcp s.pfx)
      rw [hr] at htr
      simp only at htr
      have hnotin : Eff.removeFinalizer ∉ (deletePath w s sts).1 := by
        cases hnp : w.deleteNodePortSvc <;> simp [deletePath, hnp, hr, htr]
      exact hnotin hmem
  · intro pre nm c e post hdec he hpre
    have habort := runDeleters_abort nm c e post he pre hpre
    rw [← hdec] at habort
    rcases hr : runDeleters (deleters w.gcp s.pfx) with ⟨tr, res⟩
    rw [hr] at habort
    simp only at habort
    obtain ⟨hcalls, hres⟩ := habort
    subst hres
    have htr := runDeleters_no_removeFin (deleters w.gcp s.pfx)
    rw [hr] at htr
    simp only at htr
    refine ⟨?_, ?_, ?_⟩
    · cases hnp : w.deleteNodePortSvc <;> simp [deletePath, hnp, hr]
    · cases hnp : w.deleteNodePortSvc <;>
        simp [deletePath, hnp, hr, gcpCalls, List.filterMap_append,
          List.filterMap_cons] <;>
        simpa [gcpCalls] using hcalls
    · cases hnp : w.deleteNodePortSvc <;> simp [deletePath, hnp, hr, htr]

def gcpW7 : GcpOutcomes :=
  { project := "my-project", region := "us-east1", getFirewall := .error .notFound,
    updateFirewall := none, createFirewall := none, getNEG := .error .notFound,
    createNEG := none, getBackend := .error .notFound, createBackend := none,
    listEndpoints := .ok [], detachEndpoints := none, attachEndpoints := none,
    getFwdRule := .error .notFound, createFwdRule := none, getSvcAtt := .error .notFound,
    createSvcAtt := none, deleteSvcAtt := none, deleteFwdRule := some .notFound,
    deleteBackend := none, deleteNEG := none, deleteFirewall := none }

def stsC7 : Sts :=
  { ns := "default", name := "sts", annots := [(annotKey, "x")],
    finalizers := [finalizer], deletionTimestamp := some 1 }

def wC7 : WorldK :=
  { getSts := .ok stsC7, addFinUpdate := none, decode := fun _ => .error "x",
    deleteNodePortSvc := none, getNodePortSvc := .error .notFound,
    updateNodePortSvc := none, createNodePortSvc := none, listPods := .ok [],
    getNode := fun _ => .error "x", removeFinUpdate := none, gcp := gcpW7 }

/-- Witness for C7: with one deletion already gone (NotFound) and the rest
succeeding, all five deletions are issued in order and the finalizer is
removed. -/
theorem delete_order_and_finalizer_witness :
    gcpCalls (deletePath wC7 specC6 stsC7).1 =
      [.deleteSvcAtt (svcAttName specC6.pfx), .deleteFwdRule (fwdRuleName specC6.pfx),
       .deleteBackend (backendName specC6.pfx), .deleteNEG (negName specC6.pfx),
       .deleteFirewall (firewallName specC6.pfx)] ∧
    (deletePath wC7 specC6 stsC7).2 = none ∧
    Eff.removeFinalizer ∈ (deletePath wC7 specC6 stsC7).1 := by
  have h := (delete_order_and_finalizer wC7 specC6 stsC7).2.1 (by decide)
  exact ⟨h.1, h.2.1 rfl, h.2.2 (by decide)⟩

def nodeC8 : Node :=
  { name := "node-0", hostname := "node-0",
    providerID := "gce://my-project/us-east1-a/node-0" }

def clusterC8 : String → Except String Node := fun n =>
  if n = "node-0" then .ok nodeC8 else .error "not found"

def podsC8 : List Pod :=
  [{ ns := "default", name := "pod-0", nodeName := "node-0" },
   { ns := "default", name := "pod-1", nodeName := "" }]

def stsC8 : Sts :=
  { ns := "default", name := "sts", annots := [(annotKey, "s")],
    finalizers := [finalizer], deletionTimestamp := none }

def wC8 : WorldK :=
  { getSts := .ok stsC8, addFinUpdate := none, decode := fun _ => .ok specC6,
    deleteNodePortSvc := none, getNodePortSvc := .ok (), updateNodePortSvc := none,
    createNodePortSvc := none, listPods := .ok podsC8, getNode := clusterC8,
    removeFinUpdate := none, gcp := gcpAllOk }

/-- C8 (code-bug evidence): `getNodes` does skip the unscheduled pod — the
batch succeeds although its empty node name resolves to nothing — but
`getPortMappings` then iterates over all pods, looks the empty node name
up in the node map, gets Go's nil zero value and dereferences it: the pass
panics instead of completing for the remaining replicas. -/
theorem getPortMappings_unscheduled_crash :
    getNodes clusterC8 podsC8 = .ok [("node-0", nodeC8)] ∧
    getPortMappings specC6 [("node-0", nodeC8)] podsC8 = .crash ∧
    (Reconcile wC8).2 = .crash := by
  exact ⟨by decide, by decide, by decide⟩

theorem gcpCalls_logInfos (l : List String) : gcpCalls (l.map Eff.logInfo) = [] := by
  induction l with
  | nil => rfl
  | cons a t ih => simpa [gcpCalls, List.filterMap_cons] using ih

def stsC9 : Sts :=
  { ns := "default", name := "sts", annots := [(annotKey, "bad")],
    finalizers := [finalizer], deletionTimestamp := none }

def wC9 : WorldK :=
  { getSts := .ok stsC9, addFinUpdate := none,
    decode := fun _ => .error "unexpected end of JSON input",
    deleteNodePortSvc := none, getNodePortSvc := .error .notFound,
    updateNodePortSvc := none, createNodePortSvc := none, listPods := .ok [],
    getNode := fun _ => .error "x", removeFinUpdate := none, gcp := gcpAllOk }

/-- Counterexample to C9 as stated: on a decode failure the pass does
request a requeue — `RequeueAfter` is one minute, not zero — so it is
retried with the same payload. -/
theorem Reconcile_decode_requeues_cex :
    (Reconcile wC9).2 =
      .ret requeueDelaySec (some (.other "unexpected end of JSON input")) ∧
    requeueDelaySec ≠ 0 := by
  exact ⟨by decide, by decide⟩

/-- C9 (amended): for every workload whose annotation fails to decode, the
pass logs and surfaces the decode error, performs no GCP call, and
requests a requeue after one minute — a retry with the same payload. -/
theorem Reconcile_decode_error_requeues (w : WorldK) (sts : Sts) (a m : String)
    (hget : w.getSts = .ok sts)
    (hann : mapLookup sts.annots annotKey = some a)
    (hfin : finalizer ∈ sts.finalizers ∨ w.addFinUpdate = none)
    (hdec : w.decode a = .error m) :
    (Reconcile w).2 = .ret requeueDelaySec (some (.other m)) ∧
    Eff.logError "Couldn't decode the spec from the annotation." ∈ (Reconcile w).1 ∧
    gcpCalls (Reconcile w).1 = [] ∧
    requeueDelaySec = 60 := by
  rcases hfin with hf | hupd
  · simp [Reconcile, hget, hann, hf, hdec, gcpCalls, requeueDelaySec]
  · by_cases hf : finalizer ∈ sts.finalizers
    · simp [Reconcile, hget, hann, hf, hdec, gcpCalls, requeueDelaySec]
    · simp [Reconcile, hget, hann, hf, hupd, hdec, gcpCalls, List.filterMap_cons,
        requeueDelaySec]

/-- Witness for C9 (amended) at a concrete world with a bad payload. -/
theorem Reconcile_decode_error_requeues_witness :
    (Reconcile wC9).2 =
      .ret requeueDelaySec (some (.other "unexpected end of JSON input")) ∧
    gcpCalls (Reconcile wC9).1 = [] := by
  have h := Reconcile_decode_error_requeues wC9 stsC9 "bad" "unexpected end of JSON input"
    rfl (by decide) (Or.inl (by decide)) rfl
  exact ⟨h.1, h.2.2.1⟩

/-- C10: a pass on a workload that carries a deletion timestamp but whose
annotation fails to decode, or whose decoded spec fails validation,
returns early with an error: no GCP call at all is made (in particular no
cloud-resource deletion) and the ownership finalizer is never removed. -/
theorem Reconcile_invalid_skips_teardown (w : WorldK) (sts : Sts) (a : String)
    (hget : w.getSts = .ok sts)
    (hann : mapLookup sts.annots annotKey = some a)
    (hdel : sts.deletionTimestamp ≠ none)
    (hbad : (∃ m, w.decode a = .error m) ∨
      (∃ s2, w.decode a = .ok s2 ∧ (validateSpec (some s2)).2 ≠ none)) :
    gcpCalls (Reconcile w).1 = [] ∧
    Eff.removeFinalizer ∉ (Reconcile w).1 ∧
    ∃ n e, (Reconcile w).2 = .ret n (some e) := by
  by_cases hf : finalizer ∈ sts.finalizers
  · rcases hbad with ⟨m, hm⟩ | ⟨s2, hs2, hv⟩
    · refine ⟨?_, ?_, requeueDelaySec, .other m, ?_⟩ <;>
        simp [Reconcile, hget, hann, hf, hm, gcpCalls]
    · obtain ⟨msg, hmsg⟩ := Option.ne_none_iff_exists'.mp hv
      refine ⟨?_, ?_, requeueDelaySec, .other msg, ?_⟩ <;>
        simp [Reconcile, hget, hann, hf, hs2, hmsg, gcpCalls, List.filterMap_append,
          gcpCalls_logInfos]
  · cases hup : w.addFinUpdate with
    | some e =>
      refine ⟨?_, ?_, 0, e, ?_⟩ <;>
        simp [Reconcile, hget, hann, hf, hup, gcpCalls, List.filterMap_cons]
    | none =>
      rcases hbad with ⟨m, hm⟩ | ⟨s2, hs2, hv⟩
      · refine ⟨?_, ?_, requeueDelaySec, .other m, ?_⟩ <;>
          simp [Reconcile, hget, hann, hf, hup, hm, gcpCalls, List.filterMap_cons]
      · obtain ⟨msg, hmsg⟩ := Option.ne_none_iff_exists'.mp hv
        refine ⟨?_, ?_, requeueDelaySec, .other msg, ?_⟩ <;>
          simp [Reconcile, hget, hann, hf, hup, hs2, hmsg, gcpCalls,
            List.filterMap_append, List.filterMap_cons, gcpCalls_logInfos]

def stsC10 : Sts :=
  { ns := "default", name := "sts", annots := [(annotKey, "bad")],
    finalizers := [finalizer], deletionTimestamp := some 5 }

def wC10 : WorldK :=
  { getSts := .ok stsC10, addFinUpdate := none, decode := fun _ => .error "boom",
    deleteNodePortSvc := none, getNodePortSvc := .error .notFound,
    updateNodePortSvc := none, createNodePortSvc := none, listPods := .ok [],
    getNode := fun _ => .error "x", removeFinUpdate := none, gcp := gcpAllOk }

/-- Witness for C10 at a concrete deleted-but-undecodable workload. -/
theorem Reconcile_invalid_skips_teardown_witness :
    gcpCalls (Reconcile wC10).1 = [] ∧
    Eff.removeFinalizer ∉ (Reconcile wC10).1 ∧
    ∃ n e, (Reconcile wC10).2 = .ret n (some e) :=
  Reconcile_invalid_skips_teardown wC10 stsC10 "bad" rfl (by decide) (by decide)
    (Or.inl ⟨"boom", rfl⟩)
